import Mathlib

/-!
Shallow embedding of the device-discovery and connection layer of
`main_windows.c` (GCFFlasher platform layer for Windows).

Strings from the C code (fixed char arrays, NUL-terminated) are modelled as
`List Char`; an empty list models a string whose first byte is NUL.  Machine
integers that matter here are small non-negative counters and are modelled
as `Nat`.  OS calls (SetupDi enumeration, registry queries, CreateFile and
the comm-configuration calls) are modelled by their observable outcomes,
supplied as inputs.
-/

/-- Character classification used by the serial-extraction loop in
`GetComPort` (main_windows.c lines 219-221): ASCII uppercase, lowercase or
digit. -/
def isAlnumChar (c : Char) : Bool :=
  (65 ≤ c.toNat && c.toNat ≤ 90) ||
  (97 ≤ c.toNat && c.toNat ≤ 122) ||
  (48 ≤ c.toNat && c.toNat ≤ 57)

/-- First character of a modelled C string; reading `s[0]` of an empty
string yields the NUL terminator. -/
def headD (l : List Char) : Char := l.headD (Char.ofNat 0)

/-- Fuel-driven scan for the first occurrence of `pat` at or after index
`i` in `cs`, fully inside the string. -/
def findFromAux (cs pat : List Char) : Nat → Nat → Option Nat
  | _, 0 => none
  | i, Nat.succ fuel =>
    if i + pat.length ≤ cs.length then
      if pat.isPrefixOf (cs.drop i) then some i
      else findFromAux cs pat (i + 1) fuel
    else none

/-- Modelled from the spec: `U_sstream_find` of the missing `u_sstream`
helper unit.  The parser "scans forward past the product-id token", i.e.
the search starts at the current position, on success the position moves to
the start of the found substring and the call reports success, on failure
the position is unchanged.  The patterns used by `GetComPort` are all
non-empty 8-character tokens. -/
def ssFind (cs : List Char) (pos : Nat) (pat : List Char) : Nat × Bool :=
  if pat.length = 0 then (pos, false)
  else
    match findFromAux cs pat pos (cs.length + 1) with
    | some j => (j, true)
    | none => (pos, false)

/-- Vendor/product filter of `GetComPort` (main_windows.c lines 181-200):
the chained `U_sstream_find` calls with the C short-circuit threading of
the stream position.  On a match it yields (vendor id, product id, position
of the `PID_xxxx` token). -/
def matchChain (cs : List Char) : Option (Nat × Nat × Nat) :=
  let r1 := ssFind cs 0 ("VID_1CF1".toList)
  let r2 := if r1.2 then ssFind cs r1.1 ("PID_0030".toList) else (r1.1, false)
  if r1.2 && r2.2 then some (0x1cf1, 0x0030, r2.1)
  else
    let r3 := ssFind cs r2.1 ("VID_0403".toList)
    let r4 := if r3.2 then ssFind cs r3.1 ("PID_6015".toList) else (r3.1, false)
    if r3.2 && r4.2 then some (0x0403, 0x6015, r4.1)
    else
      let r5 := ssFind cs r4.1 ("VID_1A86".toList)
      let r6 := if r5.2 then ssFind cs r5.1 ("PID_7523".toList) else (r5.1, false)
      if r5.2 && r6.2 then some (0x1a86, 0x7523, r6.1)
      else none

/-- Serial-copy loop of `GetComPort` (main_windows.c lines 212-239).
`acc` is the part of `serial[]` filled so far (the loop index `i` is
`acc.length`); `cap` is `sizeof(serial)`, i.e. `MAX_DEV_SERIALNR_LENGTH`.
The loop stops before reading a character once `i + 2 >= cap`, copies only
alphanumeric characters, and on the first other character strips a trailing
quirk letter `A` when that character is a backslash. -/
def copySerial (cap : Nat) : List Char → List Char → List Char
  | acc, [] => acc
  | acc, ch :: rest =>
    if cap ≤ acc.length + 2 then acc
    else if isAlnumChar ch then copySerial cap (acc ++ [ch]) rest
    else if ch = '\\' ∧ acc.getLast? = some 'A' then acc.dropLast
    else acc

/-- Serial-number extraction of `GetComPort` (main_windows.c lines
204-247): the separator at `pos` must be `+` or `\`, then the copy loop
runs from `pos + 1`; an empty result rejects the entry. -/
def extractSerial (cs : List Char) (pos cap : Nat) : Option (List Char) :=
  if headD (cs.drop pos) = '+' ∨ headD (cs.drop pos) = '\\' then
    if copySerial cap [] (cs.drop (pos + 1)) = [] then none
    else some (copySerial cap [] (cs.drop (pos + 1)))
  else none

/-- Whole identifier parse of `GetComPort`: vendor/product filter, skip the
8 characters of `PID_xxxx`, then serial extraction. -/
def parseIdent (cap : Nat) (s : List Char) : Option (Nat × Nat × List Char) :=
  match matchChain s with
  | none => none
  | some (vid, pid, p) =>
    match extractSerial s (p + 8) cap with
    | none => none
    | some ser => some (vid, pid, ser)

/-- Baud-rate constant of `gcf.h` (not under src/).  Modelled from the
spec: the baud-rate field is an enum over {38400, 115200}; the registry is
zero-initialized, so 0 encodes "not yet set". -/
def PL_BAUDRATE_38400 : Nat := 38400

/-- Baud-rate constant of `gcf.h` (not under src/), see
`PL_BAUDRATE_38400`. -/
def PL_BAUDRATE_115200 : Nat := 115200

/-- One slot of the device registry (`Device` of `gcf.h`, not under src/).
Modelled from the spec: fields serial, name, path, stablePath and baudRate,
all zero-initialized; exactly the fields `GetComPort` reads and writes. -/
structure Device where
  name : List Char
  serial : List Char
  path : List Char
  stablepath : List Char
  baudrate : Nat
  deriving DecidableEq

/-- All-zero registry slot, as left by `ZeroMemory` in `PL_GetDevices`. -/
def emptyDevice : Device :=
  { name := [], serial := [], path := [], stablepath := [], baudrate := 0 }

/-- Observable outcomes of the per-entry OS queries made by `GetComPort`
for one enumerated device: the raw instance identifier (`[]` when
`SetupDiGetDeviceInstanceId` fails or yields an empty string), the
bus-reported description (`none` when the property is unavailable or not a
string), whether `SPDRP_HARDWAREID` is readable, and the `PortName`
registry value (`none` when the key or value is unavailable or not
`REG_SZ`). -/
structure DevEntry where
  instId : List Char
  busDesc : Option (List Char)
  hwIdOk : Bool
  portName : Option (List Char)
  deriving DecidableEq

/-- Lookup loop of `GetComPort` (main_windows.c lines 251-260): the first
slot whose stored serial starts with the freshly extracted serial, i.e.
whose stored serial has the new serial as a prefix. -/
def findSlotAux (serial : List Char) : List Device → Nat → Option Nat
  | [], _ => none
  | d :: rest, i =>
    if serial.isPrefixOf d.serial then some i else findSlotAux serial rest (i + 1)

/-- Index of the first registry slot matching `serial`, if any. -/
def findSlot (devs : List Device) (serial : List Char) : Option Nat :=
  findSlotAux serial devs 0

/-- Empty-slot scan of `GetComPort` (main_windows.c lines 265-275). -/
def firstEmptyAux : List Device → Nat → Option Nat
  | [], _ => none
  | d :: rest, i => if d.serial = [] then some i else firstEmptyAux rest (i + 1)

/-- Index of the first slot with an empty serial, if any. -/
def firstEmpty (devs : List Device) : Option Nat := firstEmptyAux devs 0

/-- Naming and baud-rate policy of `GetComPort` (main_windows.c lines
286-328).  Applied only when a bus-reported description string is
available; guarded by `dev->name[0] != 'C'`; the description is copied
into `name` and then possibly replaced by a vendor default. -/
def applyNaming (dev : Device) (vid : Nat) (busDesc : Option (List Char)) : Device :=
  match busDesc with
  | none => dev
  | some desc =>
    if headD dev.name = 'C' then dev
    else
      if ("ConBee".toList).isPrefixOf desc then
        { dev with name := desc, baudrate := PL_BAUDRATE_115200 }
      else if vid = 0x0403 then
        { dev with name := "Serial FTDI".toList, baudrate := PL_BAUDRATE_38400 }
      else if vid = 0x1a86 then
        { dev with name := "Serial CH340".toList, baudrate := PL_BAUDRATE_115200 }
      else
        { dev with name := desc }

/-- Uppercase fold for one character, used to model the case-insensitive
`_tcsnicmp(pszPortName, "COM", 3)` comparison. -/
def toUpperCh (c : Char) : Char :=
  if 97 ≤ c.toNat ∧ c.toNat ≤ 122 then Char.ofNat (c.toNat - 32) else c

/-- Port-name validation prefix check of `GetComPort` (main_windows.c line
358): the first three characters are `COM` up to case. -/
def isComName : List Char → Bool
  | a :: b :: c :: _ => toUpperCh a == 'C' && toUpperCh b == 'O' && toUpperCh c == 'M'
  | _ => false

/-- Digit-accumulation part of the C `atoi`. -/
def atoiDigitsAux (acc : Nat) : List Char → Nat
  | [] => acc
  | c :: rest =>
    if 48 ≤ c.toNat ∧ c.toNat ≤ 57 then atoiDigitsAux (acc * 10 + (c.toNat - 48)) rest
    else acc

/-- Model of the C `atoi` as used on `pszPortName + 3` (main_windows.c line
360): skip leading blanks, optional sign, then leading digits. -/
def atoiVal (l : List Char) : Int :=
  match l.dropWhile (fun c => c == ' ' || c == '\t') with
  | '-' :: rest => - (atoiDigitsAux 0 rest : Int)
  | '+' :: rest => (atoiDigitsAux 0 rest : Int)
  | l1 => (atoiDigitsAux 0 l1 : Int)

/-- Port-name resolution of `GetComPort` (main_windows.c lines 336-371):
requires the hardware-id property to be readable, the registry `PortName`
value to exist, the name to start with `COM` (case-insensitive) and its
numeric suffix to be non-zero; yields the path to store. -/
def portPath (e : DevEntry) : Option (List Char) :=
  if e.hwIdOk then
    match e.portName with
    | some pn =>
      if isComName pn && (atoiVal (pn.drop 3) != 0) then some pn else none
    | none => none
  else none

/-- Post-insert per-entry work of `GetComPort` (main_windows.c lines
284-371) on the slot `i` holding the entry: naming policy, then the
`devs->name[0] == '\0'` gate (note: the FIRST slot of the array, not the
current one), then the port-name query writing `path` and `stablepath`. -/
def updateEntry (devs : List Device) (i : Nat) (vid : Nat) (e : DevEntry) : List Device :=
  let named := applyNaming (devs.getD i emptyDevice) vid e.busDesc
  let devs1 := devs.set i named
  if (devs1.headD emptyDevice).name = [] then devs1
  else
    match portPath e with
    | some pn => devs1.set i { named with path := pn, stablepath := pn }
    | none => devs1

/-- Body of the enumeration loop of `GetComPort` for one entry
(main_windows.c lines 164-371): read the instance id, parse it, look up or
claim a registry slot (a full registry makes the entry a no-op), then name
and path resolution.  Returns the registry and the updated running count of
slots newly claimed by this pass. -/
def processEntry (cap : Nat) (devs : List Device) (devcount : Nat) (e : DevEntry) :
    List Device × Nat :=
  if e.instId = [] then (devs, devcount)
  else
    match parseIdent cap e.instId with
    | none => (devs, devcount)
    | some (vid, _pid, serial) =>
      match findSlot devs serial with
      | some i => (updateEntry devs i vid e, devcount)
      | none =>
        match firstEmpty devs with
        | none => (devs, devcount)
        | some i =>
          let devs1 := devs.set i { devs.getD i emptyDevice with serial := serial }
          (updateEntry devs1 i vid e, devcount + 1)

/-- Enumeration loop of `GetComPort` (main_windows.c lines 160-372): the
`while` condition re-checks `devcount < max` before each entry. -/
def runPass (cap max : Nat) (devs : List Device) (devcount : Nat) :
    List DevEntry → List Device × Nat
  | [] => (devs, devcount)
  | e :: rest =>
    if devcount < max then
      let r := processEntry cap devs devcount e
      runPass cap max r.1 r.2 rest
    else (devs, devcount)

/-- `GetComPort` (main_windows.c lines 119-380) for one enumerator class,
given the observable outcomes of the per-device OS queries in device-tree
order.  `max = 0` returns immediately. -/
def GetComPort (cap : Nat) (devs : List Device) (max : Nat) (entries : List DevEntry) :
    List Device × Nat :=
  if max = 0 then (devs, 0) else runPass cap max devs 0 entries

/-- Counting loop of `PL_GetDevices` (main_windows.c lines 110-114): slots
with both a non-empty serial and a non-empty path. -/
def countDevs (devs : List Device) : Nat :=
  devs.foldl (fun r d => if !d.serial.isEmpty && !d.path.isEmpty then r + 1 else r) 0

/-- `PL_GetDevices` (main_windows.c lines 98-117): zero the registry, run
the `USB` pass then the `FTDIBUS` pass, and count usable slots. -/
def PL_GetDevices (cap max : Nat) (usbEntries ftdiEntries : List DevEntry) :
    List Device × Nat :=
  let devs0 := List.replicate max emptyDevice
  let d1 := (GetComPort cap devs0 max usbEntries).1
  let d2 := (GetComPort cap d1 max ftdiEntries).1
  (d2, countDevs d2)

/-- Events delivered to the consumer through `GCF_HandleEvent` and
`GCF_Received` (the GCF engine is outside this file's scope; only the
event stream is modelled). -/
inductive Event where
  | started
  | received (n : Nat)
  | timeout
  | disconnected
  deriving DecidableEq

/-- The fields of the `PL_Internal` singleton state that the claims
observe: whether `fd` holds an open handle (`INVALID_HANDLE_VALUE`
modelled as `false`), the transmit cursor `txpos`, and the timeout
deadline `timer` (0 = disarmed). -/
structure PL_Internal where
  fd : Bool
  txpos : Nat
  timer : Nat
  deriving DecidableEq

/-- `PL_Disconnect` (main_windows.c lines 503-513): when a handle is open,
reset the transmit cursor and close it; in every case raise exactly one
`EV_DISCONNECTED` event.  The function cannot fail. -/
def PL_Disconnect (t : PL_Internal) : PL_Internal × List Event :=
  if t.fd then ({ t with fd := false, txpos := 0 }, [Event.disconnected])
  else (t, [Event.disconnected])

/-- `PL_SetTimeout` (main_windows.c lines 83-86): arm the single deadline
to now + ms, overwriting any previous one. -/
def PL_SetTimeout (t : PL_Internal) (now ms : Nat) : PL_Internal :=
  { t with timer := now + ms }

/-- `PL_ClearTimeout` (main_windows.c lines 89-92). -/
def PL_ClearTimeout (t : PL_Internal) : PL_Internal :=
  { t with timer := 0 }

/-- Result of `PL_Connect` (`GCF_Status` of `gcf.h`, not under src/).
Modelled from the spec: connect reports success or failure. -/
inductive GCF_Status where
  | success
  | failed
  deriving DecidableEq

/-- Observable outcomes of the OS calls made by `PL_Connect`: whether
`CreateFile`, `GetCommState`, `SetCommState`, `SetCommTimeouts` and
`SetCommMask` succeed. -/
structure ConnectEnv where
  openOk : Bool
  getCommOk : Bool
  setCommOk : Bool
  timeoutsOk : Bool
  maskOk : Bool
  deriving DecidableEq

/-- Path qualification of `PL_Connect` (main_windows.c lines 402-409): a
short logical name starting with `C` gets the `\\.\` namespace attached,
an already-qualified path starting with `\` is copied as-is. -/
def qualifiedPath (path : List Char) : List Char :=
  if headD path = 'C' then "\\\\.\\".toList ++ path else path

/-- Error exit `Exit1` of `PL_Connect` (main_windows.c lines 497-499):
full disconnect, then report failure. -/
def connectFail (t : PL_Internal) : PL_Internal × List Event × GCF_Status :=
  ((PL_Disconnect t).1, (PL_Disconnect t).2, GCF_Status.failed)

/-- `PL_Connect` (main_windows.c lines 387-500).  Already connected
returns success unchanged; a path longer than 7 characters or starting
with neither `C` nor `\` is rejected; otherwise the transmit cursor is
reset, the handle opened (`env.openOk`), and each configuration step
failure funnels through `connectFail`.  The baud-rate argument selects the
DCB constant (38400, 115200, or the 115200 default) and cannot fail. -/
def PL_Connect (t : PL_Internal) (env : ConnectEnv) (path : List Char) (_baud : Nat) :
    PL_Internal × List Event × GCF_Status :=
  if t.fd then (t, [], GCF_Status.success)
  else if 7 < path.length then (t, [], GCF_Status.failed)
  else if headD path = 'C' ∨ headD path = '\\' then
    if env.openOk then
      if env.getCommOk then
        if env.setCommOk then
          if env.timeoutsOk then
            if env.maskOk then
              ({ t with txpos := 0, fd := true }, [], GCF_Status.success)
            else connectFail { t with txpos := 0, fd := true }
          else connectFail { t with txpos := 0, fd := true }
        else connectFail { t with txpos := 0, fd := true }
      else connectFail { t with txpos := 0, fd := true }
    else ({ t with txpos := 0 }, [], GCF_Status.failed)
  else (t, [], GCF_Status.failed)

/-- Outcome of the `ReadFile` call of one loop iteration: a hard failure,
or success with the byte count read (0 = the comm timeout elapsed with no
data). -/
inductive ReadOutcome where
  | failure
  | ok (n : Nat)
  deriving DecidableEq

/-- Environment input of one `PL_Loop` iteration: the `PL_Time()` sample
used by the timer check, and the read outcome (consulted only while
connected). -/
structure IterInput where
  now : Nat
  read : ReadOutcome
  deriving DecidableEq

/-- Timeout-timer check of `PL_Loop` (main_windows.c lines 768-775 and
794-801): when armed and the deadline has passed, disarm first, then raise
the one-shot `EV_TIMEOUT`. -/
def timerCheck (timer now : Nat) : Nat × List Event :=
  if timer ≠ 0 ∧ timer < now then (0, [Event.timeout]) else (timer, [])

/-- One iteration of the `while (platform.running)` body of `PL_Loop`
(main_windows.c lines 762-807).  Disconnected: idle sleep then timer
check.  Connected: read; a hard failure runs `PL_Disconnect`; data is
forwarded to the consumer; an empty read runs the timer check. -/
def loopIter (t : PL_Internal) (io : IterInput) : PL_Internal × List Event :=
  if t.fd = false then
    let tc := timerCheck t.timer io.now
    ({ t with timer := tc.1 }, tc.2)
  else
    match io.read with
    | ReadOutcome.failure => PL_Disconnect t
    | ReadOutcome.ok n =>
      if n ≠ 0 then (t, [Event.received n])
      else
        let tc := timerCheck t.timer io.now
        ({ t with timer := tc.1 }, tc.2)

/-- A run of consecutive `PL_Loop` iterations with no interleaved consumer
calls, collecting the event stream. -/
def runIters (t : PL_Internal) : List IterInput → PL_Internal × List Event
  | [] => (t, [])
  | io :: rest =>
    let r1 := loopIter t io
    let r2 := runIters r1.1 rest
    (r2.1, r1.2 ++ r2.2)

/-- Number of `EV_TIMEOUT` events in an event stream. -/
def countTimeouts : List Event → Nat
  | [] => 0
  | e :: rest => (if e = Event.timeout then 1 else 0) + countTimeouts rest

/-- Enumerated entry with serial `AB` and no further metadata. -/
def c2entry1 : DevEntry :=
  { instId := "USB\\VID_1CF1&PID_0030\\AB".toList,
    busDesc := none, hwIdOk := false, portName := none }

/-- Enumerated entry with serial `ABC`, of which the stored serial `AB` of
`c2entry1` is a proper prefix. -/
def c2entry2 : DevEntry :=
  { instId := "USB\\VID_1CF1&PID_0030\\ABC".toList,
    busDesc := none, hwIdOk := false, portName := none }

/-- First-pass entry with serial `AB`, description `ConBee II` and port
`COM3`. -/
def c2entryP1 : DevEntry :=
  { instId := "USB\\VID_1CF1&PID_0030\\AB".toList,
    busDesc := some ("ConBee II".toList), hwIdOk := true,
    portName := some ("COM3".toList) }

/-- Second-pass entry with the same serial `AB` supplying port `COM4`. -/
def c2entryP2 : DevEntry :=
  { instId := "USB\\VID_1CF1&PID_0030\\AB".toList,
    busDesc := none, hwIdOk := true, portName := some ("COM4".toList) }

/-- Registry slot as left by a first pass over `c2entryP1`. -/
def c2dev : Device :=
  { name := "ConBee II".toList, serial := "AB".toList,
    path := "COM3".toList, stablepath := "COM3".toList,
    baudrate := PL_BAUDRATE_115200 }

/-- First-pass entry with serial `AB`, description `ConBee II` and port
`COM3`, filling a capacity-1 registry. -/
def c3e1 : DevEntry :=
  { instId := "USB\\VID_1CF1&PID_0030\\AB".toList,
    busDesc := some ("ConBee II".toList), hwIdOk := true,
    portName := some ("COM3".toList) }

/-- Second-pass entry with the unseen serial `ZZ`, hitting the full
registry. -/
def c3eZ : DevEntry :=
  { instId := "USB\\VID_1CF1&PID_0030\\ZZ".toList,
    busDesc := none, hwIdOk := false, portName := none }

/-- Second-pass entry after `c3eZ`, with the known serial `AB` and port
`COM7`. -/
def c3eAB : DevEntry :=
  { instId := "USB\\VID_1CF1&PID_0030\\AB".toList,
    busDesc := none, hwIdOk := true, portName := some ("COM7".toList) }

/-- Entry with a parsable serial, no available bus description, and a
valid resolvable port name `COM3`. -/
def c5entry : DevEntry :=
  { instId := "USB\\VID_1CF1&PID_0030\\AB".toList,
    busDesc := none, hwIdOk := true, portName := some ("COM3".toList) }

/-- Registry slot with a non-empty name, for the C5 witness. -/
def c5dev : Device :=
  { name := "X".toList, serial := "AB".toList, path := [], stablepath := [],
    baudrate := 0 }

/-! ## Helper lemmas -/

theorem copySerial_alnum (cap : Nat) :
    ∀ (l acc : List Char), (∀ c ∈ acc, isAlnumChar c = true) →
      ∀ c ∈ copySerial cap acc l, isAlnumChar c = true := by
  intro l
  induction l with
  | nil =>
    intro acc hacc c hc
    simp only [copySerial] at hc
    exact hacc c hc
  | cons ch rest ih =>
    intro acc hacc c hc
    simp only [copySerial] at hc
    split at hc
    · exact hacc c hc
    · split at hc
      · rename_i hch
        refine ih (acc ++ [ch]) ?_ c hc
        intro d hd
        rcases List.mem_append.mp hd with h1 | h2
        · exact hacc d h1
        · have hd2 : d = ch := List.mem_singleton.mp h2
          rw [hd2]
          exact hch
      · split at hc
        · exact hacc c (List.dropLast_sublist acc |>.subset hc)
        · exact hacc c hc

theorem copySerial_len (cap : Nat) :
    ∀ (l acc : List Char), acc.length + 2 ≤ cap →
      (copySerial cap acc l).length + 2 ≤ cap := by
  intro l
  induction l with
  | nil => intro acc h; simpa only [copySerial] using h
  | cons ch rest ih =>
    intro acc h
    simp only [copySerial]
    split
    · exact h
    · rename_i hlt
      split
      · refine ih (acc ++ [ch]) ?_
        simp only [List.length_append, List.length_singleton]
        omega
      · split
        · have := List.length_dropLast acc
          omega
        · exact h

theorem copySerial_small (cap : Nat) (hcap : cap ≤ 2) :
    ∀ l, copySerial cap [] l = [] := by
  intro l
  cases l with
  | nil => rfl
  | cons ch rest =>
    simp only [copySerial]
    rw [if_pos]
    simp only [List.length_nil]
    omega

theorem copySerial_walk (cap : Nat) :
    ∀ (p acc l : List Char), (∀ c ∈ p, isAlnumChar c = true) →
      acc.length + p.length + 2 ≤ cap →
      copySerial cap acc (p ++ l) = copySerial cap (acc ++ p) l := by
  intro p
  induction p with
  | nil => intro acc l _ _; simp
  | cons ch rest ih =>
    intro acc l hp hlen
    have hch : isAlnumChar ch = true := hp ch (List.mem_cons_self ch rest)
    simp only [List.length_cons] at hlen
    simp only [List.cons_append, copySerial]
    rw [if_neg (by omega), if_pos hch]
    have h2 : (acc ++ [ch]) ++ rest = acc ++ ch :: rest := by simp
    rw [← h2]
    exact ih (acc ++ [ch]) l (fun c hc => hp c (List.mem_cons_of_mem ch hc))
      (by simp only [List.length_append, List.length_singleton]; omega)

theorem copySerial_strip (cap : Nat) (p rest : List Char)
    (hp : ∀ c ∈ p, isAlnumChar c = true) (hA : p.getLast? = some 'A')
    (hlen : p.length + 2 < cap) :
    copySerial cap [] (p ++ '\\' :: rest) = p.dropLast := by
  rw [copySerial_walk cap p [] ('\\' :: rest) hp
    (by simp only [List.length_nil]; omega)]
  simp only [List.nil_append]
  simp only [copySerial]
  rw [if_neg (by omega), if_neg (by decide)]
  simp [hA]

theorem extractSerial_some (cs : List Char) (pos cap : Nat) (ser : List Char)
    (h : extractSerial cs pos cap = some ser) :
    ser = copySerial cap [] (cs.drop (pos + 1)) ∧ ser ≠ [] := by
  simp only [extractSerial] at h
  split at h
  · split at h
    · exact absurd h (by simp)
    · rename_i hne
      have hs := Option.some.inj h
      constructor
      · exact hs.symm
      · rw [← hs]
        exact hne
  · exact absurd h (by simp)

theorem parseIdent_some (cap : Nat) (s : List Char) (vid pid : Nat) (ser : List Char)
    (h : parseIdent cap s = some (vid, pid, ser)) :
    ∃ pos, extractSerial s pos cap = some ser := by
  simp only [parseIdent] at h
  split at h
  · exact absurd h (by simp)
  · rename_i v p q hm
    split at h
    · exact absurd h (by simp)
    · rename_i l he
      simp only [Option.some.injEq, Prod.mk.injEq] at h
      refine ⟨q + 8, ?_⟩
      rw [← h.2.2]
      exact he

/-! ## Claim C1 -/

/-- Claim C1: for every raw bus-instance identifier string matching a
known (vendor, product) pair with a well-formed trailing serial introduced
by `+` or `\`, the extracted serial consists only of ASCII letters and
digits, its length is at most the destination capacity minus one, the
quirk trailing letter `A` is stripped from the copied tail when the next
raw character is the `\` separator artifact (when the copy was not cut off
by the capacity bound first) — stated both for the copy loop and for the
whole extraction — and the entry is rejected when zero serial characters
were copied. -/
theorem claim_C1_serial_extraction :
    (∀ cap s vid pid ser, parseIdent cap s = some (vid, pid, ser) →
        (∀ c ∈ ser, isAlnumChar c = true) ∧ ser.length ≤ cap - 1 ∧ ser ≠ [])
  ∧ (∀ cap p rest, (∀ c ∈ p, isAlnumChar c = true) → p.getLast? = some 'A' →
        p.length + 2 < cap →
        copySerial cap [] (p ++ '\\' :: rest) = p.dropLast)
  ∧ (∀ cap cs pos, copySerial cap [] (cs.drop (pos + 1)) = [] →
        extractSerial cs pos cap = none)
  ∧ (∀ cap devs dc e, parseIdent cap e.instId = none →
        processEntry cap devs dc e = (devs, dc))
  ∧ (∀ cap cs pos p rest,
        (headD (cs.drop pos) = '+' ∨ headD (cs.drop pos) = '\\') →
        cs.drop (pos + 1) = p ++ '\\' :: rest →
        (∀ c ∈ p, isAlnumChar c = true) → p.getLast? = some 'A' →
        p.length + 2 < cap → p.dropLast ≠ [] →
        extractSerial cs pos cap = some p.dropLast) := by
  refine ⟨?_, ?_, ?_, ?_, ?_⟩
  · intro cap s vid pid ser h
    obtain ⟨pos, he⟩ := parseIdent_some cap s vid pid ser h
    obtain ⟨hser, hne⟩ := extractSerial_some s pos cap ser he
    refine ⟨?_, ?_, hne⟩
    · rw [hser]
      exact copySerial_alnum cap _ [] (by intro c hc; cases hc)
    · rcases le_or_lt cap 2 with hc | hc
      · exact absurd (hser.trans (copySerial_small cap hc _)) hne
      · have := copySerial_len cap (s.drop (pos + 1)) [] (by simp; omega)
        rw [← hser] at this
        omega
  · intro cap p rest hp hA hlen
    exact copySerial_strip cap p rest hp hA hlen
  · intro cap cs pos h
    simp [extractSerial, h]
  · intro cap devs dc e h
    simp only [processEntry]
    split
    · rfl
    · simp only [h]
  · intro cap cs pos p rest hpeek hdrop hp hA hlen hne
    simp only [extractSerial]
    rw [if_pos hpeek, hdrop, copySerial_strip cap p rest hp hA hlen, if_neg hne]

/-- Witness for C1 at the FTDI scenario of the specification:
`FTDIBUS\VID_0403+PID_6015+DJ00QBWEA\0000` yields serial `DJ00QBWE`, and
the copy loop on `DJ00QBWEA\0000` strips the trailing `A`. -/
theorem claim_C1_witness :
    ((∀ c ∈ ("DJ00QBWE".toList), isAlnumChar c = true) ∧
      ("DJ00QBWE".toList).length ≤ 24 - 1 ∧ ("DJ00QBWE".toList) ≠ [])
  ∧ copySerial 24 [] (("DJ00QBWEA".toList) ++ '\\' :: ("0000".toList)) =
      ("DJ00QBWEA".toList).dropLast
  ∧ extractSerial ("FTDIBUS\\VID_0403+PID_6015+DJ00QBWEA\\0000".toList) 25 24 =
      some (("DJ00QBWEA".toList).dropLast) :=
  ⟨claim_C1_serial_extraction.1 24
      ("FTDIBUS\\VID_0403+PID_6015+DJ00QBWEA\\0000".toList)
      0x0403 0x6015 ("DJ00QBWE".toList) (by decide),
   claim_C1_serial_extraction.2.1 24 ("DJ00QBWEA".toList) ("0000".toList)
      (by decide) (by decide) (by decide),
   claim_C1_serial_extraction.2.2.2.2 24
      ("FTDIBUS\\VID_0403+PID_6015+DJ00QBWEA\\0000".toList) 25
      ("DJ00QBWEA".toList) ("0000".toList)
      (by decide) (by decide) (by decide) (by decide) (by decide) (by decide)⟩

theorem getD_set_self {α : Type} (d : α) :
    ∀ (l : List α) (i : Nat) (a : α), i < l.length → (l.set i a).getD i d = a := by
  intro l
  induction l with
  | nil => intro i a h; exact absurd h (by simp)
  | cons x rest ih =>
    intro i a h
    cases i with
    | zero => rfl
    | succ j =>
      simp only [List.set, List.getD, List.get?]
      exact ih j a (by simpa using h)

theorem applyNaming_serial (dev : Device) (vid : Nat) (d : Option (List Char)) :
    (applyNaming dev vid d).serial = dev.serial := by
  cases d with
  | none => rfl
  | some desc =>
    simp only [applyNaming]
    split
    · rfl
    · split
      · rfl
      · split
        · rfl
        · split
          · rfl
          · rfl

theorem set_preserve_map_serial :
    ∀ (l : List Device) (i : Nat) (a : Device),
      a.serial = (l.getD i emptyDevice).serial →
      (l.set i a).map Device.serial = l.map Device.serial := by
  intro l
  induction l with
  | nil => intro i a _; rfl
  | cons x rest ih =>
    intro i a h
    cases i with
    | zero =>
      have h0 : a.serial = x.serial := h
      show a.serial :: rest.map Device.serial = x.serial :: rest.map Device.serial
      rw [h0]
    | succ j =>
      have hj : a.serial = (rest.getD j emptyDevice).serial := h
      show x.serial :: (rest.set j a).map Device.serial =
        x.serial :: rest.map Device.serial
      rw [ih j a hj]

theorem set_set_map_serial :
    ∀ (l : List Device) (i : Nat) (a b : Device), b.serial = a.serial →
      ((l.set i a).set i b).map Device.serial = (l.set i a).map Device.serial := by
  intro l
  induction l with
  | nil => intro i a b _; rfl
  | cons x rest ih =>
    intro i a b hab
    cases i with
    | zero =>
      show b.serial :: rest.map Device.serial = a.serial :: rest.map Device.serial
      rw [hab]
    | succ j =>
      show x.serial :: ((rest.set j a).set j b).map Device.serial =
        x.serial :: (rest.set j a).map Device.serial
      rw [ih j a b hab]

theorem updateEntry_serials (devs : List Device) (i vid : Nat) (e : DevEntry) :
    (updateEntry devs i vid e).map Device.serial = devs.map Device.serial := by
  simp only [updateEntry]
  have hnamed : (applyNaming (devs.getD i emptyDevice) vid e.busDesc).serial =
      (devs.getD i emptyDevice).serial := applyNaming_serial _ _ _
  have h1 : (devs.set i (applyNaming (devs.getD i emptyDevice) vid e.busDesc)).map
      Device.serial = devs.map Device.serial :=
    set_preserve_map_serial devs i _ hnamed
  split
  · exact h1
  · split
    · rename_i pn _
      rw [set_set_map_serial devs i
        (applyNaming (devs.getD i emptyDevice) vid e.busDesc)
        { applyNaming (devs.getD i emptyDevice) vid e.busDesc with
            path := pn, stablepath := pn } rfl]
      exact h1
    · exact h1

theorem updateEntry_length (devs : List Device) (i vid : Nat) (e : DevEntry) :
    (updateEntry devs i vid e).length = devs.length := by
  simp only [updateEntry]
  split
  · simp
  · split
    · simp
    · simp

theorem processEntry_length (cap : Nat) (devs : List Device) (dc : Nat) (e : DevEntry) :
    ((processEntry cap devs dc e).1).length = devs.length := by
  simp only [processEntry]
  split
  · rfl
  · split
    · rfl
    · split
      · exact updateEntry_length ..
      · split
        · rfl
        · rw [updateEntry_length]
          simp

theorem runPass_length (cap max : Nat) :
    ∀ (entries : List DevEntry) (devs : List Device) (dc : Nat),
      ((runPass cap max devs dc entries).1).length = devs.length := by
  intro entries
  induction entries with
  | nil => intro devs dc; rfl
  | cons e rest ih =>
    intro devs dc
    simp only [runPass]
    split
    · rw [ih]
      exact processEntry_length ..
    · rfl

theorem countDevs_go (l : List Device) :
    ∀ n : Nat,
      l.foldl (fun r d => if !d.serial.isEmpty && !d.path.isEmpty then r + 1 else r) n =
      n + (l.filter (fun d => !d.serial.isEmpty && !d.path.isEmpty)).length := by
  induction l with
  | nil => intro n; simp
  | cons d rest ih =>
    intro n
    simp only [List.foldl_cons, List.filter_cons]
    by_cases h : (!d.serial.isEmpty && !d.path.isEmpty) = true
    · rw [if_pos h, if_pos h, ih]
      simp only [List.length_cons]
      omega
    · rw [if_neg h, if_neg h, ih]

theorem countDevs_eq_filter (devs : List Device) :
    countDevs devs =
      (devs.filter (fun d => !d.serial.isEmpty && !d.path.isEmpty)).length := by
  unfold countDevs
  rw [countDevs_go devs 0]
  exact Nat.zero_add _

theorem GetComPort_length (cap : Nat) (devs : List Device) (max : Nat)
    (entries : List DevEntry) :
    ((GetComPort cap devs max entries).1).length = devs.length := by
  simp only [GetComPort]
  split
  · rfl
  · exact runPass_length ..

/-! ## Claim C4 -/

/-- Claim C4: the count returned by `PL_GetDevices` equals the number of
registry slots whose serial and path are both non-empty, and never exceeds
the capacity `max`. -/
theorem claim_C4_count_devices (cap max : Nat) (usb ftdi : List DevEntry) :
    (PL_GetDevices cap max usb ftdi).2 =
      ((PL_GetDevices cap max usb ftdi).1.filter
        (fun d => !d.serial.isEmpty && !d.path.isEmpty)).length
    ∧ (PL_GetDevices cap max usb ftdi).2 ≤ max := by
  constructor
  · exact countDevs_eq_filter _
  · have hlen : ((PL_GetDevices cap max usb ftdi).1).length = max := by
      simp only [PL_GetDevices]
      rw [GetComPort_length, GetComPort_length]
      simp
    calc (PL_GetDevices cap max usb ftdi).2
        = ((PL_GetDevices cap max usb ftdi).1.filter
            (fun d => !d.serial.isEmpty && !d.path.isEmpty)).length :=
          countDevs_eq_filter _
      _ ≤ ((PL_GetDevices cap max usb ftdi).1).length := List.length_filter_le ..
      _ = max := hlen

theorem parseIdent_nil (cap : Nat) : parseIdent cap [] = none := rfl

/-! ## Claim C2 -/

/-- Counterexample for C2.  First conjunct pair: two passes whose serials
are related by prefix (`AB` stored first, `ABC` enumerated second) claim
two registry slots, not one, because the lookup only matches when the NEW
serial is a prefix of the STORED one.  Second conjunct pair: the `path`
set by the first pass (`COM3`) is overwritten when the second pass
resolves a port (`COM4`) for the same serial. -/
theorem claim_C2_counterexample :
    ((PL_GetDevices 24 2 [c2entry1] [c2entry2]).1.map Device.serial =
      ["AB".toList, "ABC".toList])
  ∧ ("AB".toList).isPrefixOf ("ABC".toList) = true
  ∧ ((PL_GetDevices 24 1 [c2entryP1] []).1.map Device.path = ["COM3".toList])
  ∧ ((PL_GetDevices 24 1 [c2entryP1] [c2entryP2]).1.map Device.path =
      ["COM4".toList]) := by
  refine ⟨by decide, by decide, by decide, by decide⟩

/-- Amended C2: an entry whose extracted serial is found by the registry
lookup (the stored serial has the new serial as a prefix, equality
included) claims no new slot — the running count and every stored serial
are unchanged — and a slot whose stored name begins with the sentinel
character `C` keeps its name and baud rate; slots named otherwise, and the
path field, may be overwritten by a later matching pass.  An entry whose
serial is NOT matched (in particular a longer serial of which the stored
one is a proper prefix) claims a fresh empty slot when one exists,
incrementing the running count. -/
theorem claim_C2_amended_dedup :
    (∀ cap devs dc e vid pid ser i,
        parseIdent cap e.instId = some (vid, pid, ser) →
        findSlot devs ser = some i →
        (processEntry cap devs dc e).2 = dc ∧
        (processEntry cap devs dc e).1.map Device.serial = devs.map Device.serial)
  ∧ (∀ dev vid d, headD dev.name = 'C' → applyNaming dev vid d = dev)
  ∧ (∀ cap devs dc e vid pid ser i,
        parseIdent cap e.instId = some (vid, pid, ser) →
        findSlot devs ser = none →
        firstEmpty devs = some i →
        (processEntry cap devs dc e).2 = dc + 1) := by
  refine ⟨?_, ?_, ?_⟩
  · intro cap devs dc e vid pid ser i h hslot
    have hni : ¬(e.instId = []) := by
      intro hnil
      rw [hnil, parseIdent_nil] at h
      exact absurd h (by simp)
    simp only [processEntry, if_neg hni, h, hslot]
    exact ⟨trivial, updateEntry_serials ..⟩
  · intro dev vid d hname
    cases d with
    | none => rfl
    | some desc =>
      simp only [applyNaming]
      rw [if_pos hname]
  · intro cap devs dc e vid pid ser i h hslot hempty
    have hni : ¬(e.instId = []) := by
      intro hnil
      rw [hnil, parseIdent_nil] at h
      exact absurd h (by simp)
    simp only [processEntry, if_neg hni, h, hslot, hempty]

/-- Witness for the amended C2 at a one-slot registry holding serial `AB`
(name `ConBee II`, path `COM3`) receiving a second pass entry with the
same serial: no new slot, serials unchanged; and the `ConBee II` name pins
the slot against renaming. -/
theorem claim_C2_witness :
    ((processEntry 24 [c2dev] 0 c2entryP2).2 = 0 ∧
      (processEntry 24 [c2dev] 0 c2entryP2).1.map Device.serial =
        [c2dev].map Device.serial)
  ∧ applyNaming c2dev 0x0403 (some ("Foo".toList)) = c2dev :=
  ⟨claim_C2_amended_dedup.1 24 [c2dev] 0 c2entryP2 0x1cf1 0x0030 ("AB".toList) 0
      (by decide) (by decide),
   claim_C2_amended_dedup.2.1 c2dev 0x0403 (some ("Foo".toList)) (by decide)⟩

/-! ## Claim C3 -/

/-- Counterexample for C3.  A capacity-1 registry is filled by the first
pass (`AB`, path `COM3`).  In the second pass the first entry (`ZZ`) hits
a full registry; were the enumeration to stop immediately there, the later
entry with the known serial `AB` would not be processed and the path would
stay `COM3`; the code continues the walk and the path becomes `COM7`. -/
theorem claim_C3_counterexample :
    ((PL_GetDevices 24 1 [c3e1] [c3eZ]).1.map Device.path = ["COM3".toList])
  ∧ ((PL_GetDevices 24 1 [c3e1] [c3eZ, c3eAB]).1.map Device.path =
      ["COM7".toList])
  ∧ ((PL_GetDevices 24 1 [c3e1] [c3eZ, c3eAB]).1.map Device.serial =
      ["AB".toList]) := by
  refine ⟨by decide, by decide, by decide⟩

/-- Amended C3: when an entry's serial is not found and no empty slot
remains, the insert is a no-op and only that entry is skipped — the
registry and the running count are unchanged and the walk continues with
the remaining entries (third conjunct: while the running count is below
the capacity, the loop always proceeds to the rest of the list); a pass
stops early exactly when the count of slots newly claimed in this pass
reaches the capacity, returning that running count (a soft limit, not an
error). -/
theorem claim_C3_amended_registry_full :
    (∀ cap devs dc e vid pid ser,
        parseIdent cap e.instId = some (vid, pid, ser) →
        findSlot devs ser = none →
        firstEmpty devs = none →
        processEntry cap devs dc e = (devs, dc))
  ∧ (∀ cap max devs dc entries, max ≤ dc →
        runPass cap max devs dc entries = (devs, dc))
  ∧ (∀ cap max devs dc e rest, dc < max →
        runPass cap max devs dc (e :: rest) =
          runPass cap max (processEntry cap devs dc e).1
            (processEntry cap devs dc e).2 rest) := by
  refine ⟨?_, ?_, ?_⟩
  · intro cap devs dc e vid pid ser h hslot hempty
    have hni : ¬(e.instId = []) := by
      intro hnil
      rw [hnil, parseIdent_nil] at h
      exact absurd h (by simp)
    simp only [processEntry, if_neg hni, h, hslot, hempty]
  · intro cap max devs dc entries h
    cases entries with
    | nil => rfl
    | cons e rest =>
      simp only [runPass]
      rw [if_neg (Nat.not_lt.mpr h)]
  · intro cap max devs dc e rest h
    simp only [runPass]
    rw [if_pos h]

/-- Witness for the amended C3: the full one-slot registry left by the
first pass makes the unseen-serial entry `ZZ` a strict no-op, and a pass
whose running count has reached the capacity stops. -/
theorem claim_C3_witness :
    (processEntry 24 [c2dev] 0 c3eZ = ([c2dev], 0))
  ∧ runPass 24 1 [c2dev] 1 [c3eAB] = ([c2dev], 1) :=
  ⟨claim_C3_amended_registry_full.1 24 [c2dev] 0 c3eZ 0x1cf1 0x0030 ("ZZ".toList)
      (by decide) (by decide) (by decide),
   claim_C3_amended_registry_full.2.1 24 1 [c2dev] 1 [c3eAB] (by decide)⟩

/-! ## Claim C5 -/

/-- Counterexample for C5: a single enumerated entry whose description is
unavailable (name stays empty) and whose port name `COM3` is resolvable;
the `devs->name[0] == '\0'` gate (which reads the FIRST slot of the array)
skips the port query, so the entry gains no path. -/
theorem claim_C5_counterexample :
    portPath c5entry = some ("COM3".toList)
  ∧ ((PL_GetDevices 24 1 [c5entry] []).1.map Device.name = [([] : List Char)])
  ∧ ((PL_GetDevices 24 1 [c5entry] []).1.map Device.serial = ["AB".toList])
  ∧ ((PL_GetDevices 24 1 [c5entry] []).1.map Device.path = [([] : List Char)]) := by
  refine ⟨by decide, by decide, by decide, by decide⟩

/-- Amended C5: after the naming step, the port-name query for an entry is
gated on the name of the FIRST registry slot: when slot 0's name is empty
the query is skipped for that entry (even if a valid port would resolve);
when slot 0's name is non-empty the query runs — in particular an entry
whose own name stayed empty can still gain a path then. -/
theorem claim_C5_amended_port_gate :
    (∀ devs i vid e,
        ((devs.set i (applyNaming (devs.getD i emptyDevice) vid e.busDesc)).headD
            emptyDevice).name = [] →
        updateEntry devs i vid e =
          devs.set i (applyNaming (devs.getD i emptyDevice) vid e.busDesc))
  ∧ (∀ devs i vid e pn, i < devs.length →
        ((devs.set i (applyNaming (devs.getD i emptyDevice) vid e.busDesc)).headD
            emptyDevice).name ≠ [] →
        portPath e = some pn →
        ((updateEntry devs i vid e).getD i emptyDevice).path = pn ∧
        ((updateEntry devs i vid e).getD i emptyDevice).stablepath = pn) := by
  constructor
  · intro devs i vid e h
    simp only [updateEntry]
    rw [if_pos h]
  · intro devs i vid e pn hi hname hport
    simp only [updateEntry, if_neg hname, hport]
    have hlen : i < (devs.set i (applyNaming (devs.getD i emptyDevice) vid
        e.busDesc)).length := by
      simpa using hi
    rw [getD_set_self emptyDevice _ i _ hlen]
    exact ⟨rfl, rfl⟩

/-- Witness for the amended C5: with an all-empty registry the port query
of the entry is skipped; with slot 0 named, the same entry (own name still
empty) gains path `COM3`. -/
theorem claim_C5_witness :
    (updateEntry [emptyDevice] 0 0x1cf1 c5entry =
      [emptyDevice].set 0 (applyNaming ([emptyDevice].getD 0 emptyDevice) 0x1cf1
        c5entry.busDesc))
  ∧ (((updateEntry [c5dev] 0 0x1cf1 c5entry).getD 0 emptyDevice).path =
        "COM3".toList ∧
      ((updateEntry [c5dev] 0 0x1cf1 c5entry).getD 0 emptyDevice).stablepath =
        "COM3".toList) :=
  ⟨claim_C5_amended_port_gate.1 [emptyDevice] 0 0x1cf1 c5entry (by decide),
   claim_C5_amended_port_gate.2 [c5dev] 0 0x1cf1 c5entry ("COM3".toList)
      (by decide) (by decide) (by decide)⟩

theorem PL_Disconnect_timer (t : PL_Internal) :
    (PL_Disconnect t).1.timer = t.timer := by
  simp only [PL_Disconnect]
  split <;> rfl

theorem PL_Disconnect_events (t : PL_Internal) :
    (PL_Disconnect t).2 = [Event.disconnected] := by
  simp only [PL_Disconnect]
  split <;> rfl

theorem countTimeouts_append :
    ∀ (a b : List Event), countTimeouts (a ++ b) = countTimeouts a + countTimeouts b := by
  intro a b
  induction a with
  | nil => simp [countTimeouts]
  | cons e rest ih =>
    show (if e = Event.timeout then 1 else 0) + countTimeouts (rest ++ b) =
      ((if e = Event.timeout then 1 else 0) + countTimeouts rest) + countTimeouts b
    rw [ih]
    omega

theorem loopIter_timer_zero (t : PL_Internal) (io : IterInput) (h : t.timer = 0) :
    (loopIter t io).1.timer = 0 ∧ countTimeouts (loopIter t io).2 = 0 := by
  simp only [loopIter]
  by_cases hfd : t.fd = false
  · rw [if_pos hfd]
    simp [timerCheck, h, countTimeouts]
  · rw [if_neg hfd]
    split
    · refine ⟨(PL_Disconnect_timer t).trans h, ?_⟩
      rw [PL_Disconnect_events]
      rfl
    · split
      · exact ⟨h, rfl⟩
      · simp [timerCheck, h, countTimeouts]

theorem loopIter_dichotomy (t : PL_Internal) (io : IterInput) :
    ((loopIter t io).1.timer = t.timer ∧ countTimeouts (loopIter t io).2 = 0) ∨
    ((loopIter t io).1.timer = 0 ∧ countTimeouts (loopIter t io).2 = 1) := by
  simp only [loopIter]
  by_cases hfd : t.fd = false
  · rw [if_pos hfd]
    simp only [timerCheck]
    split
    · right; exact ⟨rfl, rfl⟩
    · left; exact ⟨rfl, rfl⟩
  · rw [if_neg hfd]
    split
    · left
      refine ⟨PL_Disconnect_timer t, ?_⟩
      rw [PL_Disconnect_events]
      rfl
    · split
      · left; exact ⟨rfl, rfl⟩
      · simp only [timerCheck]
        split
        · right; exact ⟨rfl, rfl⟩
        · left; exact ⟨rfl, rfl⟩

theorem runIters_timer_zero :
    ∀ (ios : List IterInput) (t : PL_Internal), t.timer = 0 →
      countTimeouts (runIters t ios).2 = 0 ∧ (runIters t ios).1.timer = 0 := by
  intro ios
  induction ios with
  | nil => intro t h; exact ⟨rfl, h⟩
  | cons io rest ih =>
    intro t h
    simp only [runIters, countTimeouts_append]
    obtain ⟨h1, h2⟩ := loopIter_timer_zero t io h
    obtain ⟨h3, h4⟩ := ih (loopIter t io).1 h1
    exact ⟨by rw [h2, h3], h4⟩

theorem runIters_le_one :
    ∀ (ios : List IterInput) (t : PL_Internal),
      countTimeouts (runIters t ios).2 ≤ 1 := by
  intro ios
  induction ios with
  | nil => intro t; exact Nat.zero_le 1
  | cons io rest ih =>
    intro t
    simp only [runIters, countTimeouts_append]
    rcases loopIter_dichotomy t io with ⟨_, h2⟩ | ⟨h1, h2⟩
    · rw [h2]
      simpa using ih (loopIter t io).1
    · rw [h2]
      have h3 := (runIters_timer_zero rest (loopIter t io).1 h1).1
      omega

/-! ## Claim C6 -/

/-- Claim C6: after one arming of the timer, a run of loop iterations
raises at most one timeout event (the timer is disarmed when it fires and
nothing re-arms it inside the loop); a timeout is raised on an iteration
only when the timer was armed, its deadline lies strictly before the
sampled time, and no data was delivered (while connected, the read
returned zero bytes); and an arm followed by `PL_ClearTimeout` before any
iteration ran never raises a timeout. -/
theorem claim_C6_timeout_once :
    (∀ t now ms ios,
        countTimeouts (runIters (PL_SetTimeout t now ms) ios).2 ≤ 1)
  ∧ (∀ t io, Event.timeout ∈ (loopIter t io).2 →
        t.timer ≠ 0 ∧ t.timer < io.now ∧
        (t.fd = true → io.read = ReadOutcome.ok 0))
  ∧ (∀ t now ms ios,
        countTimeouts (runIters (PL_ClearTimeout (PL_SetTimeout t now ms)) ios).2 = 0) := by
  refine ⟨?_, ?_, ?_⟩
  · intro t now ms ios
    exact runIters_le_one ios _
  · intro t io hmem
    simp only [loopIter] at hmem
    by_cases hfd : t.fd = false
    · rw [if_pos hfd] at hmem
      simp only [timerCheck] at hmem
      split at hmem
      · rename_i hcond
        exact ⟨hcond.1, hcond.2, fun hf => absurd hf (by simp [hfd])⟩
      · exact absurd hmem (by simp)
    · rw [if_neg hfd] at hmem
      split at hmem
      · rw [PL_Disconnect_events] at hmem
        simp at hmem
      · rename_i n heq
        split at hmem
        · simp at hmem
        · rename_i hn
          simp only [timerCheck] at hmem
          split at hmem
          · rename_i hcond
            have hn0 : n = 0 := by omega
            refine ⟨hcond.1, hcond.2, fun _ => ?_⟩
            rw [heq, hn0]
          · exact absurd hmem (by simp)
  · intro t now ms ios
    exact (runIters_timer_zero ios _ rfl).1

/-- Witness for C6: a disconnected iteration at time 10 with the timer
armed at 5 fires, and the fire conditions hold. -/
theorem claim_C6_witness :
    ({ fd := false, txpos := 0, timer := 5 } : PL_Internal).timer ≠ 0 ∧
    ({ fd := false, txpos := 0, timer := 5 } : PL_Internal).timer <
      ({ now := 10, read := ReadOutcome.ok 0 } : IterInput).now ∧
    (({ fd := false, txpos := 0, timer := 5 } : PL_Internal).fd = true →
      ({ now := 10, read := ReadOutcome.ok 0 } : IterInput).read = ReadOutcome.ok 0) :=
  claim_C6_timeout_once.2.1 { fd := false, txpos := 0, timer := 5 }
    { now := 10, read := ReadOutcome.ok 0 } (by decide)

/-! ## Claim C7 -/

/-- Counterexample for C7: when nothing is open and the transmit cursor is
non-zero, `PL_Disconnect` leaves the cursor untouched (the reset sits
inside the handle-open branch), while still raising its one disconnected
event. -/
theorem claim_C7_counterexample :
    (PL_Disconnect { fd := false, txpos := 5, timer := 0 }).1.txpos ≠ 0
  ∧ (PL_Disconnect { fd := false, txpos := 5, timer := 0 }).2 =
      [Event.disconnected] := by
  refine ⟨by decide, by decide⟩

/-- Amended C7: `PL_Disconnect` never errors and on every call — open or
not — raises exactly one disconnected event and leaves the handle closed;
it resets the transmit cursor when a handle was open, and when nothing was
open it leaves the state untouched; a repeated call is a no-op apart from
the event. -/
theorem claim_C7_amended_idempotent (t : PL_Internal) :
    (PL_Disconnect t).2 = [Event.disconnected] ∧
    (PL_Disconnect t).1.fd = false ∧
    (t.fd = true → (PL_Disconnect t).1.txpos = 0) ∧
    (t.fd = false → (PL_Disconnect t).1 = t) ∧
    PL_Disconnect (PL_Disconnect t).1 =
      ((PL_Disconnect t).1, [Event.disconnected]) := by
  by_cases h : t.fd = true
  · simp [PL_Disconnect, h]
  · have h2 : t.fd = false := by
      revert h
      cases t.fd <;> simp
    simp [PL_Disconnect, h2]

/-- Witness for the amended C7: an open transport gets its cursor reset; a
closed one is left untouched. -/
theorem claim_C7_witness :
    (PL_Disconnect { fd := true, txpos := 3, timer := 7 }).1.txpos = 0 ∧
    (PL_Disconnect { fd := false, txpos := 0, timer := 7 }).1 =
      { fd := false, txpos := 0, timer := 7 } :=
  ⟨(claim_C7_amended_idempotent { fd := true, txpos := 3, timer := 7 }).2.2.1 rfl,
   (claim_C7_amended_idempotent { fd := false, txpos := 0, timer := 7 }).2.2.2.1 rfl⟩

/-! ## Claim C8 -/

/-- Claim C8: when not connected, `PL_Connect` fails for every path longer
than 7 characters or starting with neither `C` nor `\`; when already
connected it returns success unchanged — no reopening, no events — for any
path. -/
theorem claim_C8_connect_preconditions :
    (∀ t env path b, t.fd = false →
        (7 < path.length ∨ (headD path ≠ 'C' ∧ headD path ≠ '\\')) →
        (PL_Connect t env path b).2.2 = GCF_Status.failed)
  ∧ (∀ t env path b, t.fd = true →
        PL_Connect t env path b = (t, [], GCF_Status.success)) := by
  constructor
  · intro t env path b hfd hbad
    simp only [PL_Connect]
    rw [if_neg (by simp [hfd])]
    rcases hbad with hlen | ⟨h1, h2⟩
    · rw [if_pos hlen]
    · by_cases hlen : 7 < path.length
      · rw [if_pos hlen]
      · rw [if_neg hlen, if_neg (not_or.mpr ⟨h1, h2⟩)]
  · intro t env path b hfd
    simp only [PL_Connect]
    rw [if_pos hfd]

/-- Witness for C8: with a closed transport, the 8-character path
`COMPORT9` and the path `XOM3` are both rejected; with an open transport
any path yields success unchanged. -/
theorem claim_C8_witness :
    (PL_Connect { fd := false, txpos := 0, timer := 0 }
        { openOk := true, getCommOk := true, setCommOk := true,
          timeoutsOk := true, maskOk := true } ("COMPORT9".toList) 115200).2.2 =
      GCF_Status.failed ∧
    (PL_Connect { fd := false, txpos := 0, timer := 0 }
        { openOk := true, getCommOk := true, setCommOk := true,
          timeoutsOk := true, maskOk := true } ("XOM3".toList) 115200).2.2 =
      GCF_Status.failed ∧
    PL_Connect { fd := true, txpos := 2, timer := 0 }
        { openOk := false, getCommOk := false, setCommOk := false,
          timeoutsOk := false, maskOk := false } ("COM3".toList) 115200 =
      ({ fd := true, txpos := 2, timer := 0 }, [], GCF_Status.success) :=
  ⟨claim_C8_connect_preconditions.1 { fd := false, txpos := 0, timer := 0 } _ _ _
      rfl (Or.inl (by decide)),
   claim_C8_connect_preconditions.1 { fd := false, txpos := 0, timer := 0 } _ _ _
      rfl (Or.inr (by decide)),
   claim_C8_connect_preconditions.2 { fd := true, txpos := 2, timer := 0 } _ _ _ rfl⟩

/-! ## Claim C9 -/

/-- Claim C9: whenever a configuration step fails after the handle was
opened (comm-state get or set, timeouts, or comm mask), `PL_Connect`
reports failure with the handle closed and the transmit cursor reset — the
`Exit1` path runs a full `PL_Disconnect`, so no half-configured open
handle survives. -/
theorem claim_C9_connect_unwind (t : PL_Internal) (env : ConnectEnv)
    (path : List Char) (b : Nat) (hfd : t.fd = false)
    (hlen : path.length ≤ 7) (hpre : headD path = 'C' ∨ headD path = '\\')
    (hopen : env.openOk = true)
    (hcfg : env.getCommOk = false ∨ env.setCommOk = false ∨
      env.timeoutsOk = false ∨ env.maskOk = false) :
    (PL_Connect t env path b).2.2 = GCF_Status.failed ∧
    (PL_Connect t env path b).1.fd = false ∧
    (PL_Connect t env path b).1.txpos = 0 := by
  simp only [PL_Connect]
  rw [if_neg (by simp [hfd]), if_neg (Nat.not_lt.mpr hlen), if_pos hpre,
    if_pos hopen]
  by_cases hg : env.getCommOk = true
  · rw [if_pos hg]
    by_cases hs : env.setCommOk = true
    · rw [if_pos hs]
      by_cases ht : env.timeoutsOk = true
      · rw [if_pos ht]
        by_cases hm : env.maskOk = true
        · exfalso
          rcases hcfg with hc | hc | hc | hc
          · rw [hc] at hg; exact Bool.false_ne_true hg
          · rw [hc] at hs; exact Bool.false_ne_true hs
          · rw [hc] at ht; exact Bool.false_ne_true ht
          · rw [hc] at hm; exact Bool.false_ne_true hm
        · rw [if_neg hm]
          exact ⟨rfl, rfl, rfl⟩
      · rw [if_neg ht]
        exact ⟨rfl, rfl, rfl⟩
    · rw [if_neg hs]
      exact ⟨rfl, rfl, rfl⟩
  · rw [if_neg hg]
    exact ⟨rfl, rfl, rfl⟩

/-- Witness for C9: `GetCommState` failing after a successful open leaves
a failed, closed, cursor-reset transport. -/
theorem claim_C9_witness :
    (PL_Connect { fd := false, txpos := 9, timer := 0 }
        { openOk := true, getCommOk := false, setCommOk := true,
          timeoutsOk := true, maskOk := true } ("COM3".toList) 115200).2.2 =
      GCF_Status.failed ∧
    (PL_Connect { fd := false, txpos := 9, timer := 0 }
        { openOk := true, getCommOk := false, setCommOk := true,
          timeoutsOk := true, maskOk := true } ("COM3".toList) 115200).1.fd =
      false ∧
    (PL_Connect { fd := false, txpos := 9, timer := 0 }
        { openOk := true, getCommOk := false, setCommOk := true,
          timeoutsOk := true, maskOk := true } ("COM3".toList) 115200).1.txpos =
      0 :=
  claim_C9_connect_unwind { fd := false, txpos := 9, timer := 0 }
    { openOk := true, getCommOk := false, setCommOk := true,
      timeoutsOk := true, maskOk := true } ("COM3".toList) 115200
    rfl (by decide) (Or.inl (by decide)) rfl (Or.inl rfl)

/-! ## Claim C10 -/

/-- Claim C10 (implicit): a post-open configuration failure inside
`PL_Connect` is observable to the consumer as exactly one disconnected
event, because the unwind path calls `PL_Disconnect`, which raises it
unconditionally. -/
theorem claim_C10_failed_connect_event (t : PL_Internal) (env : ConnectEnv)
    (path : List Char) (b : Nat) (hfd : t.fd = false)
    (hlen : path.length ≤ 7) (hpre : headD path = 'C' ∨ headD path = '\\')
    (hopen : env.openOk = true)
    (hcfg : env.getCommOk = false ∨ env.setCommOk = false ∨
      env.timeoutsOk = false ∨ env.maskOk = false) :
    (PL_Connect t env path b).2.1 = [Event.disconnected] := by
  simp only [PL_Connect]
  rw [if_neg (by simp [hfd]), if_neg (Nat.not_lt.mpr hlen), if_pos hpre,
    if_pos hopen]
  by_cases hg : env.getCommOk = true
  · rw [if_pos hg]
    by_cases hs : env.setCommOk = true
    · rw [if_pos hs]
      by_cases ht : env.timeoutsOk = true
      · rw [if_pos ht]
        by_cases hm : env.maskOk = true
        · exfalso
          rcases hcfg with hc | hc | hc | hc
          · rw [hc] at hg; exact Bool.false_ne_true hg
          · rw [hc] at hs; exact Bool.false_ne_true hs
          · rw [hc] at ht; exact Bool.false_ne_true ht
          · rw [hc] at hm; exact Bool.false_ne_true hm
        · rw [if_neg hm]
          rfl
      · rw [if_neg ht]
        rfl
    · rw [if_neg hs]
      rfl
  · rw [if_neg hg]
    rfl

/-- Witness for C10: the `GetCommState` failure scenario delivers the
disconnected event to the consumer. -/
theorem claim_C10_witness :
    (PL_Connect { fd := false, txpos := 9, timer := 0 }
        { openOk := true, getCommOk := true, setCommOk := false,
          timeoutsOk := true, maskOk := true } ("COM3".toList) 115200).2.1 =
      [Event.disconnected] :=
  claim_C10_failed_connect_event { fd := false, txpos := 9, timer := 0 }
    { openOk := true, getCommOk := true, setCommOk := false,
      timeoutsOk := true, maskOk := true } ("COM3".toList) 115200
    rfl (by decide) (Or.inl (by decide)) rfl (Or.inr (Or.inl rfl))
